import Mathlib

set_option maxHeartbeats 1000000

/-!
Shallow embedding of the pierrec/xxHash repository: the 32-bit pipeline
(package xxHash32) and the 64-bit pipeline (package xxHash64).

Machine integers are modelled as Nat, reduced modulo 2 ^ 32 or 2 ^ 64 at every
operation where Go wraps.  Byte slices are List Nat; every element is read
through its low 8 bits, exactly as a Go byte.  The carry buffer (a fixed
array `buf [N]byte` plus `bufused int` in Go) is modelled as the list of its
used bytes, which is the only part either package ever reads.  The
endianness-dependent fast paths of the Go source compute the same
little-endian-interpreted words as the portable branch, so a single
little-endian read is used here.
-/

def M32 : Nat := 2 ^ 32
def M64 : Nat := 2 ^ 64

/-- Primes of the 32-bit pipeline (src/unnamed/part_001, const block). -/
def prime32_1 : Nat := 2654435761

def prime32_2 : Nat := 2246822519

def prime32_3 : Nat := 3266489917

def prime32_4 : Nat := 668265263

def prime32_5 : Nat := 374761393

/-- Primes of the 64-bit pipeline (src/xxHash64/xxHash64.go, const block). -/
def prime64_1 : Nat := 11400714785074694791

def prime64_2 : Nat := 14029467366897019727

def prime64_3 : Nat := 1609587929392839161

def prime64_4 : Nat := 9650029242287828579

def prime64_5 : Nat := 2870177450012600261

/-- Left rotation on uint32: `(v << r) | (v >> (32 - r))`. -/
def rotl32 (v r : Nat) : Nat := ((v <<< r) % M32) ||| (v >>> (32 - r))

/-- Left rotation on uint64: `(v << r) | (v >> (64 - r))`. -/
def rotl64 (v r : Nat) : Nat := ((v <<< r) % M64) ||| (v >>> (64 - r))

/-- Byte `i` of a byte slice (Go bytes are < 256; the low 8 bits are used). -/
def byteAt (b : List Nat) (i : Nat) : Nat := b.getD i 0 % 256

/-- Little-endian 4-byte read (func u32 in src/unnamed/part_001). -/
def u32 (b : List Nat) : Nat :=
  byteAt b 0 ||| byteAt b 1 <<< 8 ||| byteAt b 2 <<< 16 ||| byteAt b 3 <<< 24

/-- Little-endian 8-byte read (the word reads of src/xxHash64/xxHash64.go). -/
def u64 (b : List Nat) : Nat :=
  byteAt b 0 ||| byteAt b 1 <<< 8 ||| byteAt b 2 <<< 16 ||| byteAt b 3 <<< 24 |||
  byteAt b 4 <<< 32 ||| byteAt b 5 <<< 40 ||| byteAt b 6 <<< 48 ||| byteAt b 7 <<< 56

/-- The four accumulator lanes v1..v4. -/
structure Lanes where
  v1 : Nat
  v2 : Nat
  v3 : Nat
  v4 : Nat
deriving DecidableEq, Repr

/-- One 32-bit lane step: `p32 := v + w*prime32_2; v = rotl32(p32, 13) * prime32_1`. -/
def round32 (v w : Nat) : Nat := rotl32 ((v + w * prime32_2) % M32) 13 * prime32_1 % M32

/-- One 64-bit lane step: `p64 := v + w*prime64_2; v = rotl64(p64, 31) * prime64_1`. -/
def round64 (v w : Nat) : Nat := rotl64 ((v + w * prime64_2) % M64) 31 * prime64_1 % M64

/-- Mix one 16-byte stripe into the four 32-bit lanes. -/
def mixStripe32 (l : Lanes) (b : List Nat) : Lanes :=
  ⟨round32 l.v1 (u32 b), round32 l.v2 (u32 (b.drop 4)),
   round32 l.v3 (u32 (b.drop 8)), round32 l.v4 (u32 (b.drop 12))⟩

/-- Mix one 32-byte stripe into the four 64-bit lanes. -/
def mixStripe64 (l : Lanes) (b : List Nat) : Lanes :=
  ⟨round64 l.v1 (u64 b), round64 l.v2 (u64 (b.drop 8)),
   round64 l.v3 (u64 (b.drop 16)), round64 l.v4 (u64 (b.drop 24))⟩

/-- The stripe loops of Write/Checksum (`for n := n - stripe; p <= n; p += stripe`),
with an explicit fuel so that the definition is structurally recursive.  The fuel
is always instantiated with the length of the byte list, which bounds the number
of loop iterations. -/
def stripesAux (st : Nat) (mix : Lanes → List Nat → Lanes) :
    Nat → Lanes → List Nat → Lanes × List Nat
  | 0, l, b => (l, b)
  | fuel + 1, l, b =>
    if st ≤ b.length then stripesAux st mix fuel (mix l (b.take st)) (b.drop st)
    else (l, b)

/-- Consume every full stripe from the front of `b`, returning the final lanes
and the remaining (shorter than one stripe) bytes. -/
def stripes (st : Nat) (mix : Lanes → List Nat → Lanes) (l : Lanes) (b : List Nat) :
    Lanes × List Nat :=
  stripesAux st mix b.length l b

/-- The streaming state (struct xxHash in both packages; both have all-Nat
fields once bytes are Nat, so a single state type serves both widths).
`buf` holds the `bufused` carry bytes. -/
structure XXHState where
  seed : Nat
  v1 : Nat
  v2 : Nat
  v3 : Nat
  v4 : Nat
  totalLen : Nat
  buf : List Nat
deriving DecidableEq, Repr

def lanes (s : XXHState) : Lanes := ⟨s.v1, s.v2, s.v3, s.v4⟩

/-- Reset of the 32-bit state (src/unnamed/part_001, func Reset).
`seed - prime32_1` wraps on uint32. -/
def reset32 (s : XXHState) : XXHState :=
  { seed := s.seed
    v1 := (s.seed + prime32_1 + prime32_2) % M32
    v2 := (s.seed + prime32_2) % M32
    v3 := s.seed % M32
    v4 := (s.seed + (M32 - prime32_1)) % M32
    totalLen := 0
    buf := [] }

/-- Reset of the 64-bit state (src/xxHash64/xxHash64.go, func Reset). -/
def reset64 (s : XXHState) : XXHState :=
  { seed := s.seed
    v1 := (s.seed + prime64_1 + prime64_2) % M64
    v2 := (s.seed + prime64_2) % M64
    v3 := s.seed % M64
    v4 := (s.seed + (M64 - prime64_1)) % M64
    totalLen := 0
    buf := [] }

/-- New(seed) for the 32-bit width: fresh state, then Reset. -/
def new32 (seed : Nat) : XXHState :=
  reset32 { seed := seed, v1 := 0, v2 := 0, v3 := 0, v4 := 0, totalLen := 0, buf := [] }

/-- New(seed) for the 64-bit width: fresh state, then Reset. -/
def new64 (seed : Nat) : XXHState :=
  reset64 { seed := seed, v1 := 0, v2 := 0, v3 := 0, v4 := 0, totalLen := 0, buf := [] }

/-- Write, generic in the stripe size (16 or 32) and stripe mixer; returns the
updated state together with the Go return values `(len(input), nil)`.
Mirrors func Write of both packages: if the carry plus the new bytes do not
fill a stripe they are appended to the carry; otherwise the carry is completed
from the head of the input and mixed, every further full stripe of the input
is mixed, and the tail is copied into the carry.  `totalLen` is a uint64. -/
def writeG (st : Nat) (mix : Lanes → List Nat → Lanes) (s : XXHState) (input : List Nat) :
    XXHState × Nat × Option String :=
  let n := input.length
  let m := s.buf.length
  let tl := (s.totalLen + n) % M64
  if n < st - m then
    ({ s with totalLen := tl, buf := s.buf ++ input }, n, none)
  else
    let r := st - m
    let start : Lanes × List Nat :=
      if 0 < m then (mix (lanes s) (s.buf ++ input.take r), input.drop r)
      else (lanes s, input)
    let done := stripes st mix start.1 start.2
    ({ seed := s.seed, v1 := done.1.v1, v2 := done.1.v2, v3 := done.1.v3, v4 := done.1.v4,
       totalLen := tl, buf := done.2 }, n, none)

/-- Write for the 64-bit width, with its Go return values. -/
def write64Run (s : XXHState) (input : List Nat) : XXHState × Nat × Option String :=
  writeG 32 mixStripe64 s input

def write64 (s : XXHState) (input : List Nat) : XXHState := (write64Run s input).1

/-- Write for the 32-bit width, with its Go return values. -/
def write32Run (s : XXHState) (input : List Nat) : XXHState × Nat × Option String :=
  writeG 16 mixStripe32 s input

def write32 (s : XXHState) (input : List Nat) : XXHState := (write32Run s input).1

def writeAll64 (s : XXHState) (ds : List (List Nat)) : XXHState := ds.foldl write64 s

def writeAll32 (s : XXHState) (ds : List (List Nat)) : XXHState := ds.foldl write32 s

/-- The 8-byte-group pass of the 64-bit tail
(`for n := n - 8; p <= n; p += 8` in Sum64/Checksum), fueled. -/
def absorb8Aux : Nat → Nat → List Nat → Nat × List Nat
  | 0, h, b => (h, b)
  | fuel + 1, h, b =>
    if 8 ≤ b.length then
      absorb8Aux fuel
        ((rotl64 (h ^^^ (rotl64 (u64 b * prime64_2 % M64) 31 * prime64_1 % M64)) 27
            * prime64_1 + prime64_4) % M64)
        (b.drop 8)
    else (h, b)

/-- The 64-bit tail: 8-byte groups, then one optional 4-byte group, then single
bytes (the shared tail code of Sum64 and Checksum in src/xxHash64/xxHash64.go). -/
def absorbTail64 (h0 : Nat) (b : List Nat) : Nat :=
  let e := absorb8Aux b.length h0 b
  let f :=
    if 4 ≤ e.2.length then
      ((rotl64 (e.1 ^^^ (u32 e.2 * prime64_1 % M64)) 23 * prime64_2 + prime64_3) % M64,
        e.2.drop 4)
    else e
  f.2.foldl (fun h c => rotl64 (h ^^^ (c % 256 * prime64_5 % M64)) 11 * prime64_1 % M64) f.1

/-- The 4-byte-group pass of the 32-bit tail
(`for n := n - 4; p <= n; p += 4` in Sum32/Checksum), fueled. -/
def absorb4Aux : Nat → Nat → List Nat → Nat × List Nat
  | 0, h, b => (h, b)
  | fuel + 1, h, b =>
    if 4 ≤ b.length then
      absorb4Aux fuel (rotl32 ((h + u32 b * prime32_3) % M32) 17 * prime32_4 % M32) (b.drop 4)
    else (h, b)

/-- The 32-bit tail: 4-byte groups, then single bytes (the shared tail code of
Sum32 and Checksum in src/unnamed/part_001). -/
def absorbTail32 (h0 : Nat) (b : List Nat) : Nat :=
  let e := absorb4Aux b.length h0 b
  e.2.foldl (fun h c => rotl32 ((h + c % 256 * prime32_5) % M32) 11 * prime32_1 % M32) e.1

/-- The 32-bit avalanche. -/
def avalanche32 (h : Nat) : Nat :=
  let h1 := (h ^^^ (h >>> 15)) * prime32_2 % M32
  let h2 := (h1 ^^^ (h1 >>> 13)) * prime32_3 % M32
  h2 ^^^ (h2 >>> 16)

/-- The 64-bit avalanche. -/
def avalanche64 (h : Nat) : Nat :=
  let h1 := (h ^^^ (h >>> 33)) * prime64_2 % M64
  let h2 := (h1 ^^^ (h1 >>> 29)) * prime64_3 % M64
  h2 ^^^ (h2 >>> 32)

/-- One 64-bit merge round: `v *= prime64_2; h ^= rotl64(v, 31) * prime64_1;
h = h*prime64_1 + prime64_4` (v is the lane value before the multiplication). -/
def mergeRound64 (h v : Nat) : Nat :=
  ((h ^^^ (rotl64 (v * prime64_2 % M64) 31 * prime64_1 % M64)) * prime64_1 + prime64_4) % M64

/-- The 64-bit lane merge of Sum64/Checksum (lines 163-182 resp. 278-297 of
src/xxHash64/xxHash64.go), without the final `+ totalLen`. -/
def mergeLanes64 (l : Lanes) : Nat :=
  mergeRound64 (mergeRound64 (mergeRound64 (mergeRound64
    ((rotl64 l.v1 1 + rotl64 l.v2 7 + rotl64 l.v3 12 + rotl64 l.v4 18) % M64)
    l.v1) l.v2) l.v3) l.v4

/-- The 32-bit lane merge: `rotl32(v1,1)+rotl32(v2,7)+rotl32(v3,12)+rotl32(v4,18)`
(reduced by the caller). -/
def mergeLanes32 (l : Lanes) : Nat :=
  rotl32 l.v1 1 + rotl32 l.v2 7 + rotl32 l.v3 12 + rotl32 l.v4 18

/-- Sum64 (src/xxHash64/xxHash64.go, lines 160-233).  The Go receiver is a
pointer and the merge multiplies the stored lanes by prime64_2 in place, so the
function returns the digest together with the state it leaves behind. -/
def sum64Run (s : XXHState) : Nat × XXHState :=
  if 32 ≤ s.totalLen then
    (avalanche64 (absorbTail64 ((mergeLanes64 (lanes s) + s.totalLen) % M64) s.buf),
     { s with v1 := s.v1 * prime64_2 % M64, v2 := s.v2 * prime64_2 % M64,
              v3 := s.v3 * prime64_2 % M64, v4 := s.v4 * prime64_2 % M64 })
  else
    (avalanche64 (absorbTail64 ((s.seed + prime64_5 + s.totalLen) % M64) s.buf), s)

/-- The digest Sum64 returns. -/
def sum64 (s : XXHState) : Nat := (sum64Run s).1

/-- Sum32 (src/unnamed/part_001, lines 122-151).  It only reads the state. -/
def sum32 (s : XXHState) : Nat :=
  let h0 :=
    if 16 ≤ s.totalLen then (s.totalLen % M32 + mergeLanes32 (lanes s)) % M32
    else (s.totalLen % M32 + s.seed + prime32_5) % M32
  avalanche32 (absorbTail32 h0 s.buf)

/-- One-shot Checksum (src/xxHash64/xxHash64.go, lines 236-354). -/
def checksum64 (input : List Nat) (seed : Nat) : Nat :=
  let n := input.length
  if 32 ≤ n then
    let v0 : Lanes :=
      ⟨(seed + prime64_1 + prime64_2) % M64, (seed + prime64_2) % M64,
       seed % M64, (seed + (M64 - prime64_1)) % M64⟩
    let done := stripes 32 mixStripe64 v0 input
    avalanche64 (absorbTail64 ((mergeLanes64 done.1 + n) % M64) done.2)
  else
    avalanche64 (absorbTail64 ((seed + prime64_5 + n) % M64) input)

/-- One-shot Checksum (src/unnamed/part_001, lines 154-213). -/
def checksum32 (input : List Nat) (seed : Nat) : Nat :=
  let n := input.length
  if n < 16 then
    avalanche32 (absorbTail32 ((n % M32 + seed + prime32_5) % M32) input)
  else
    let v0 : Lanes :=
      ⟨(seed + prime32_1 + prime32_2) % M32, (seed + prime32_2) % M32,
       seed % M32, (seed + (M32 - prime32_1)) % M32⟩
    let done := stripes 16 mixStripe32 v0 input
    avalanche32 (absorbTail32 ((n % M32 + mergeLanes32 done.1) % M32) done.2)

/-- Size() of the 32-bit width. -/
def size32 : Nat := 4

/-- Size() of the 64-bit width. -/
def size64 : Nat := 8

/-- Sum(b) of the 32-bit width: append the digest bytes little-endian.  The Go
receiver is a value, so the caller's state is untouched. -/
def sum32Append (s : XXHState) (b : List Nat) : List Nat :=
  let h := sum32 s
  b ++ [h % 256, (h >>> 8) % 256, (h >>> 16) % 256, (h >>> 24) % 256]

/-- Sum(b) of the 64-bit width: append the digest bytes little-endian.  The Go
receiver is a value, so the mutation done by Sum64 hits only the copy and the
caller's state is untouched. -/
def sum64Append (s : XXHState) (b : List Nat) : List Nat :=
  let h := sum64 s
  b ++ [h % 256, (h >>> 8) % 256, (h >>> 16) % 256, (h >>> 24) % 256,
        (h >>> 32) % 256, (h >>> 40) % 256, (h >>> 48) % 256, (h >>> 56) % 256]

/-- Little-endian bytes, `k` of them, of an integer (the spec byte-serialization order). -/
def leBytes : Nat → Nat → List Nat
  | 0, _ => []
  | k + 1, x => x % 256 :: leBytes k (x / 256)

/-- Value of a little-endian byte sequence. -/
def leNat (b : List Nat) : Nat := b.foldr (fun c acc => c % 256 + 256 * acc) 0

/-- Spec-side 64-bit merge round, written from the spec sentence
"v[i] *= Q2; h ^= rotl64(v[i],31)*Q1; h = h*Q1+Q4". -/
def specMergeStep64 (h v : Nat) : Nat :=
  ((h ^^^ (rotl64 (v * prime64_2 % M64) 31 * prime64_1 % M64)) * prime64_1 + prime64_4) % M64

/-- Spec-side 8-byte-group step, written from the spec sentence
"8-byte little-endian groups: h ^= rotl64(word*Q2,31)*Q1; h = rotl64(h,27)*Q1+Q4". -/
def specEightStep64 (h w : Nat) : Nat :=
  (rotl64 (h ^^^ (rotl64 (w * prime64_2 % M64) 31 * prime64_1 % M64)) 27
      * prime64_1 + prime64_4) % M64

/-- Run `k` consecutive 8-byte groups, each one reading the first eight bytes. -/
def specEightGroups64 : Nat → Nat → List Nat → Nat × List Nat
  | 0, h, b => (h, b)
  | k + 1, h, b => specEightGroups64 k (specEightStep64 h (u64 (b.take 8))) (b.drop 8)

/-- Spec-side 8-byte pass: the carry is consumed in exactly `len / 8` 8-byte
groups. -/
def specEights64 (h : Nat) (b : List Nat) : Nat × List Nat :=
  specEightGroups64 (b.length / 8) h b

/-- Spec-side optional 4-byte group: "one optional 4-byte group if ≥ 4 bytes
remain: h ^= word32*Q1; h = rotl64(h,23)*Q2+Q3". -/
def specFour64 (h : Nat) (b : List Nat) : Nat × List Nat :=
  if 4 ≤ b.length then
    ((rotl64 (h ^^^ (u32 (b.take 4) * prime64_1 % M64)) 23 * prime64_2 + prime64_3) % M64,
      b.drop 4)
  else (h, b)

/-- Spec-side single-byte pass: "h ^= byte*Q5; h = rotl64(h,11)*Q1". -/
def specBytes64 (h : Nat) (b : List Nat) : Nat :=
  b.foldl (fun h c => rotl64 (h ^^^ (c % 256 * prime64_5 % M64)) 11 * prime64_1 % M64) h

/-- The 64-bit finalize exactly as claim C4 words it: lane merge as a fold over
the four lanes in order, then the three tail passes, then the avalanche. -/
def sum64SpecFormula (s : XXHState) : Nat :=
  let h0 :=
    if 32 ≤ s.totalLen then
      (([s.v1, s.v2, s.v3, s.v4].foldl specMergeStep64
          ((rotl64 s.v1 1 + rotl64 s.v2 7 + rotl64 s.v3 12 + rotl64 s.v4 18) % M64))
        + s.totalLen) % M64
    else (s.seed + prime64_5 + s.totalLen) % M64
  let e := specEights64 h0 s.buf
  let f := specFour64 e.1 e.2
  let h1 := specBytes64 f.1 f.2
  let h2 := (h1 ^^^ (h1 >>> 33)) * prime64_2 % M64
  let h3 := (h2 ^^^ (h2 >>> 29)) * prime64_3 % M64
  h3 ^^^ (h3 >>> 32)

/-- Spec-side 4-byte-group step of the 32-bit tail:
"4-byte little-endian groups: h += word*P3; h = rotl32(h,17)*P4". -/
def specFourStep32 (h w : Nat) : Nat :=
  rotl32 ((h + w * prime32_3) % M32) 17 * prime32_4 % M32

/-- Run `k` consecutive 4-byte groups, each one reading the first four bytes. -/
def specFourGroups32 : Nat → Nat → List Nat → Nat × List Nat
  | 0, h, b => (h, b)
  | k + 1, h, b => specFourGroups32 k (specFourStep32 h (u32 (b.take 4))) (b.drop 4)

/-- Spec-side 4-byte pass of the 32-bit tail: the carry is consumed in exactly
`len / 4` 4-byte groups. -/
def specFours32 (h : Nat) (b : List Nat) : Nat × List Nat :=
  specFourGroups32 (b.length / 4) h b

/-- Spec-side single-byte pass of the 32-bit tail:
"h += byte*P5; h = rotl32(h,11)*P1". -/
def specBytes32 (h : Nat) (b : List Nat) : Nat :=
  b.foldl (fun h c => rotl32 ((h + c % 256 * prime32_5) % M32) 11 * prime32_1 % M32) h

/-- The 32-bit finalize exactly as claim C5 words it. -/
def sum32SpecFormula (s : XXHState) : Nat :=
  let h0 :=
    if 16 ≤ s.totalLen then
      (s.totalLen % M32 +
        (rotl32 s.v1 1 + rotl32 s.v2 7 + rotl32 s.v3 12 + rotl32 s.v4 18)) % M32
    else (s.totalLen % M32 + (s.seed + prime32_5)) % M32
  let e := specFours32 h0 s.buf
  let h1 := specBytes32 e.1 e.2
  let h2 := (h1 ^^^ (h1 >>> 15)) * prime32_2 % M32
  let h3 := (h2 ^^^ (h2 >>> 13)) * prime32_3 % M32
  h3 ^^^ (h3 >>> 16)

/-! ### Lemmas about the stripe loop -/

theorem stripesAux_fuel (st : Nat) (mix : Lanes → List Nat → Lanes) (hst : 0 < st) :
    ∀ f g (l : Lanes) (b : List Nat), b.length ≤ f → b.length ≤ g →
      stripesAux st mix f l b = stripesAux st mix g l b := by
  intro f
  induction f with
  | zero =>
    intro g l b hf _
    have hb : b = [] := List.length_eq_zero.mp (Nat.le_zero.mp hf)
    subst hb
    cases g with
    | zero => rfl
    | succ g =>
      simp only [stripesAux, List.length_nil]
      rw [if_neg (by omega)]
  | succ f ih =>
    intro g l b hf hg
    cases g with
    | zero =>
      have hb : b = [] := List.length_eq_zero.mp (Nat.le_zero.mp hg)
      subst hb
      simp only [stripesAux, List.length_nil]
      rw [if_neg (by omega)]
    | succ g =>
      simp only [stripesAux]
      by_cases hb : st ≤ b.length
      · rw [if_pos hb, if_pos hb]
        exact ih g _ (b.drop st) (by rw [List.length_drop]; omega)
          (by rw [List.length_drop]; omega)
      · rw [if_neg hb, if_neg hb]

theorem stripes_of_lt (st : Nat) (mix : Lanes → List Nat → Lanes) (l : Lanes)
    (b : List Nat) (hb : b.length < st) : stripes st mix l b = (l, b) := by
  unfold stripes
  rcases hn : b.length with _ | k
  · rfl
  · simp only [stripesAux]
    rw [if_neg (by omega)]

theorem stripes_of_le (st : Nat) (mix : Lanes → List Nat → Lanes) (hst : 0 < st)
    (l : Lanes) (b : List Nat) (hb : st ≤ b.length) :
    stripes st mix l b = stripes st mix (mix l (b.take st)) (b.drop st) := by
  unfold stripes
  rcases hn : b.length with _ | k
  · omega
  · simp only [stripesAux]
    rw [if_pos (by omega)]
    exact stripesAux_fuel st mix hst k ((b.drop st).length) _ (b.drop st)
      (by rw [List.length_drop]; omega) le_rfl

theorem stripes_snd_lt (st : Nat) (mix : Lanes → List Nat → Lanes) (hst : 0 < st)
    (l : Lanes) (b : List Nat) : (stripes st mix l b).2.length < st := by
  suffices h : ∀ f (l : Lanes) (b : List Nat), b.length ≤ f →
      (stripesAux st mix f l b).2.length < st by
    exact h b.length l b le_rfl
  intro f
  induction f with
  | zero =>
    intro l b hb
    have hb2 : b = [] := List.length_eq_zero.mp (Nat.le_zero.mp hb)
    subst hb2
    simpa [stripesAux] using hst
  | succ f ih =>
    intro l b hb
    simp only [stripesAux]
    by_cases h1 : st ≤ b.length
    · rw [if_pos h1]
      exact ih _ _ (by rw [List.length_drop]; omega)
    · rw [if_neg h1]
      exact Nat.not_le.mp h1

theorem stripes_append (st : Nat) (mix : Lanes → List Nat → Lanes) (hst : 0 < st)
    (x y : List Nat) (l : Lanes) :
    stripes st mix l (x ++ y) =
      stripes st mix (stripes st mix l x).1 ((stripes st mix l x).2 ++ y) := by
  suffices h : ∀ f (l : Lanes) (x : List Nat), x.length ≤ f →
      stripes st mix l (x ++ y) =
        stripes st mix (stripes st mix l x).1 ((stripes st mix l x).2 ++ y) by
    exact h x.length l x le_rfl
  intro f
  induction f with
  | zero =>
    intro l x hx
    have hx2 : x = [] := List.length_eq_zero.mp (Nat.le_zero.mp hx)
    subst hx2
    rw [stripes_of_lt st mix l [] (by simpa using hst)]
  | succ f ih =>
    intro l x hx
    by_cases h1 : st ≤ x.length
    · have hxy : st ≤ (x ++ y).length := by rw [List.length_append]; omega
      rw [stripes_of_le st mix hst l (x ++ y) hxy,
        List.take_append_of_le_length h1, List.drop_append_of_le_length h1,
        stripes_of_le st mix hst l x h1]
      exact ih _ _ (by rw [List.length_drop]; omega)
    · rw [stripes_of_lt st mix l x (by omega)]

/-! ### Lemmas about Write -/

theorem writeG_eq (st : Nat) (mix : Lanes → List Nat → Lanes) (hst : 0 < st)
    (s : XXHState) (input : List Nat) (h : s.buf.length < st) :
    writeG st mix s input =
      ({ seed := s.seed,
         v1 := (stripes st mix (lanes s) (s.buf ++ input)).1.v1,
         v2 := (stripes st mix (lanes s) (s.buf ++ input)).1.v2,
         v3 := (stripes st mix (lanes s) (s.buf ++ input)).1.v3,
         v4 := (stripes st mix (lanes s) (s.buf ++ input)).1.v4,
         totalLen := (s.totalLen + input.length) % M64,
         buf := (stripes st mix (lanes s) (s.buf ++ input)).2 },
       input.length, none) := by
  simp only [writeG]
  by_cases h1 : input.length < st - s.buf.length
  · rw [if_pos h1]
    have h2 : (s.buf ++ input).length < st := by rw [List.length_append]; omega
    rw [stripes_of_lt st mix _ _ h2]
    cases s
    simp [lanes]
  · rw [if_neg h1]
    by_cases h2 : 0 < s.buf.length
    · rw [if_pos h2]
      have hlen : st ≤ (s.buf ++ input).length := by rw [List.length_append]; omega
      rw [stripes_of_le st mix hst _ _ hlen,
        List.take_append_eq_append_take, List.drop_append_eq_append_drop,
        List.take_of_length_le (le_of_lt h), List.drop_eq_nil_of_le (le_of_lt h),
        List.nil_append]
    · rw [if_neg h2]
      have hb : s.buf = [] := List.length_eq_zero.mp (by omega)
      rw [hb, List.nil_append]

theorem writeG_writeG (st : Nat) (mix : Lanes → List Nat → Lanes) (hst : 0 < st)
    (s : XXHState) (a b : List Nat) (h : s.buf.length < st) :
    (writeG st mix (writeG st mix s a).1 b).1 = (writeG st mix s (a ++ b)).1 := by
  rw [writeG_eq st mix hst s (a ++ b) h, writeG_eq st mix hst s a h,
    writeG_eq st mix hst _ b (stripes_snd_lt st mix hst _ _)]
  rw [← List.append_assoc, stripes_append st mix hst (s.buf ++ a) b (lanes s)]
  simp only [Nat.mod_add_mod, List.length_append, Nat.add_assoc]
  rfl

theorem writeG_nil (st : Nat) (mix : Lanes → List Nat → Lanes) (s : XXHState)
    (h : s.buf.length < st) (ht : s.totalLen < M64) :
    (writeG st mix s []).1 = s := by
  simp only [writeG, List.length_nil]
  rw [if_pos (by omega)]
  cases s
  simp [Nat.mod_eq_of_lt ht]

theorem foldl_writeG (st : Nat) (mix : Lanes → List Nat → Lanes) (hst : 0 < st) :
    ∀ (ds : List (List Nat)) (s : XXHState), s.buf.length < st → s.totalLen < M64 →
      ds.foldl (fun s d => (writeG st mix s d).1) s = (writeG st mix s ds.flatten).1 := by
  intro ds
  induction ds with
  | nil =>
    intro s h1 h2
    rw [List.foldl_nil, List.flatten_nil, writeG_nil st mix s h1 h2]
  | cons d ds ih =>
    intro s h1 h2
    rw [List.foldl_cons,
      ih _ (by rw [writeG_eq st mix hst s d h1]; exact stripes_snd_lt st mix hst _ _)
        (by rw [writeG_eq st mix hst s d h1]
            exact Nat.mod_lt _ (by norm_num [M64])),
      writeG_writeG st mix hst s d ds.flatten h1, List.flatten_cons]

/-! ### Streaming versus one-shot -/

theorem writeAll64_flatten (seed : Nat) (ds : List (List Nat)) :
    writeAll64 (new64 seed) ds = write64 (new64 seed) ds.flatten := by
  have h : write64 = fun s d => (writeG 32 mixStripe64 s d).1 := rfl
  unfold writeAll64
  rw [h, foldl_writeG 32 mixStripe64 (by norm_num) ds (new64 seed)
    (by simp [new64, reset64]) (by norm_num [new64, reset64, M64])]

theorem writeAll32_flatten (seed : Nat) (ds : List (List Nat)) :
    writeAll32 (new32 seed) ds = write32 (new32 seed) ds.flatten := by
  have h : write32 = fun s d => (writeG 16 mixStripe32 s d).1 := rfl
  unfold writeAll32
  rw [h, foldl_writeG 16 mixStripe32 (by norm_num) ds (new32 seed)
    (by simp [new32, reset32]) (by norm_num [new32, reset32, M64])]

theorem sum64_write64_new64 (seed : Nat) (d : List Nat) (h : d.length < 2 ^ 64) :
    sum64 (write64 (new64 seed) d) = checksum64 d seed := by
  rw [write64, write64Run,
    writeG_eq 32 mixStripe64 (by norm_num) (new64 seed) d (by simp [new64, reset64])]
  have hbuf : (new64 seed).buf = [] := rfl
  have htl : ((new64 seed).totalLen + d.length) % M64 = d.length := by
    have h0 : (new64 seed).totalLen = 0 := rfl
    rw [h0, Nat.zero_add]
    exact Nat.mod_eq_of_lt h
  rw [hbuf, List.nil_append, htl]
  have hlanes : lanes (new64 seed) =
      ⟨(seed + prime64_1 + prime64_2) % M64, (seed + prime64_2) % M64,
       seed % M64, (seed + (M64 - prime64_1)) % M64⟩ := rfl
  rw [hlanes]
  by_cases h32 : 32 ≤ d.length
  · simp only [sum64, sum64Run, checksum64]
    rw [if_pos h32, if_pos h32]
    rfl
  · simp only [sum64, sum64Run, checksum64]
    rw [if_neg h32, if_neg h32,
      stripes_of_lt 32 mixStripe64 _ d (by omega)]
    rfl

theorem sum32_write32_new32 (seed : Nat) (d : List Nat) (h : d.length < 2 ^ 64) :
    sum32 (write32 (new32 seed) d) = checksum32 d seed := by
  rw [write32, write32Run,
    writeG_eq 16 mixStripe32 (by norm_num) (new32 seed) d (by simp [new32, reset32])]
  have hbuf : (new32 seed).buf = [] := rfl
  have htl : ((new32 seed).totalLen + d.length) % M64 = d.length := by
    have h0 : (new32 seed).totalLen = 0 := rfl
    rw [h0, Nat.zero_add]
    exact Nat.mod_eq_of_lt h
  rw [hbuf, List.nil_append, htl]
  have hlanes : lanes (new32 seed) =
      ⟨(seed + prime32_1 + prime32_2) % M32, (seed + prime32_2) % M32,
       seed % M32, (seed + (M32 - prime32_1)) % M32⟩ := rfl
  rw [hlanes]
  by_cases h16 : d.length < 16
  · simp only [sum32, checksum32]
    rw [if_neg (by omega), if_pos h16,
      stripes_of_lt 16 mixStripe32 _ d (by omega)]
    rfl
  · simp only [sum32, checksum32]
    rw [if_pos (by omega), if_neg h16]
    rfl

/-! ### The tail passes match the spec-shaped recursions -/

theorem absorb8Aux_fuel : ∀ f g (h : Nat) (b : List Nat), b.length ≤ f → b.length ≤ g →
    absorb8Aux f h b = absorb8Aux g h b := by
  intro f
  induction f with
  | zero =>
    intro g h b hf _
    have hb : b = [] := List.length_eq_zero.mp (Nat.le_zero.mp hf)
    subst hb
    cases g with
    | zero => rfl
    | succ g =>
      simp only [absorb8Aux, List.length_nil]
      rw [if_neg (by omega)]
  | succ f ih =>
    intro g h b hf hg
    cases g with
    | zero =>
      have hb : b = [] := List.length_eq_zero.mp (Nat.le_zero.mp hg)
      subst hb
      simp only [absorb8Aux, List.length_nil]
      rw [if_neg (by omega)]
    | succ g =>
      simp only [absorb8Aux]
      by_cases hb : 8 ≤ b.length
      · rw [if_pos hb, if_pos hb]
        exact ih g _ (b.drop 8) (by rw [List.length_drop]; omega)
          (by rw [List.length_drop]; omega)
      · rw [if_neg hb, if_neg hb]

theorem absorb4Aux_fuel : ∀ f g (h : Nat) (b : List Nat), b.length ≤ f → b.length ≤ g →
    absorb4Aux f h b = absorb4Aux g h b := by
  intro f
  induction f with
  | zero =>
    intro g h b hf _
    have hb : b = [] := List.length_eq_zero.mp (Nat.le_zero.mp hf)
    subst hb
    cases g with
    | zero => rfl
    | succ g =>
      simp only [absorb4Aux, List.length_nil]
      rw [if_neg (by omega)]
  | succ f ih =>
    intro g h b hf hg
    cases g with
    | zero =>
      have hb : b = [] := List.length_eq_zero.mp (Nat.le_zero.mp hg)
      subst hb
      simp only [absorb4Aux, List.length_nil]
      rw [if_neg (by omega)]
    | succ g =>
      simp only [absorb4Aux]
      by_cases hb : 4 ≤ b.length
      · rw [if_pos hb, if_pos hb]
        exact ih g _ (b.drop 4) (by rw [List.length_drop]; omega)
          (by rw [List.length_drop]; omega)
      · rw [if_neg hb, if_neg hb]

theorem byteAt_take (b : List Nat) (k i : Nat) (h : i < k) :
    byteAt (b.take k) i = byteAt b i := by
  unfold byteAt
  rw [List.getD_eq_getElem?_getD, List.getD_eq_getElem?_getD, List.getElem?_take_of_lt h]

theorem u32_take (b : List Nat) : u32 (b.take 4) = u32 b := by
  unfold u32
  rw [byteAt_take b 4 0 (by omega), byteAt_take b 4 1 (by omega),
    byteAt_take b 4 2 (by omega), byteAt_take b 4 3 (by omega)]

theorem u64_take (b : List Nat) : u64 (b.take 8) = u64 b := by
  unfold u64
  rw [byteAt_take b 8 0 (by omega), byteAt_take b 8 1 (by omega),
    byteAt_take b 8 2 (by omega), byteAt_take b 8 3 (by omega),
    byteAt_take b 8 4 (by omega), byteAt_take b 8 5 (by omega),
    byteAt_take b 8 6 (by omega), byteAt_take b 8 7 (by omega)]

theorem specEights64_eq (h : Nat) (b : List Nat) :
    specEights64 h b = absorb8Aux b.length h b := by
  unfold specEights64
  suffices hs : ∀ f (h : Nat) (b : List Nat), b.length ≤ f →
      absorb8Aux f h b = specEightGroups64 (b.length / 8) h b from
    (hs b.length h b le_rfl).symm
  intro f
  induction f with
  | zero =>
    intro h b hb
    have hb2 : b = [] := List.length_eq_zero.mp (Nat.le_zero.mp hb)
    subst hb2
    rfl
  | succ f ih =>
    intro h b hb
    by_cases h8 : 8 ≤ b.length
    · have hdiv : b.length / 8 = (b.length - 8) / 8 + 1 := by omega
      rw [hdiv]
      simp only [absorb8Aux, specEightGroups64]
      rw [if_pos h8, ih _ (b.drop 8) (by rw [List.length_drop]; omega), List.length_drop]
      have hstep : specEightStep64 h (u64 (b.take 8)) =
          (rotl64 (h ^^^ (rotl64 (u64 b * prime64_2 % M64) 31 * prime64_1 % M64)) 27
              * prime64_1 + prime64_4) % M64 := by
        unfold specEightStep64
        rw [u64_take]
      rw [hstep]
    · rw [Nat.div_eq_of_lt (by omega)]
      simp only [absorb8Aux, specEightGroups64]
      rw [if_neg h8]

theorem specFours32_eq (h : Nat) (b : List Nat) :
    specFours32 h b = absorb4Aux b.length h b := by
  unfold specFours32
  suffices hs : ∀ f (h : Nat) (b : List Nat), b.length ≤ f →
      absorb4Aux f h b = specFourGroups32 (b.length / 4) h b from
    (hs b.length h b le_rfl).symm
  intro f
  induction f with
  | zero =>
    intro h b hb
    have hb2 : b = [] := List.length_eq_zero.mp (Nat.le_zero.mp hb)
    subst hb2
    rfl
  | succ f ih =>
    intro h b hb
    by_cases h4 : 4 ≤ b.length
    · have hdiv : b.length / 4 = (b.length - 4) / 4 + 1 := by omega
      rw [hdiv]
      simp only [absorb4Aux, specFourGroups32]
      rw [if_pos h4, ih _ (b.drop 4) (by rw [List.length_drop]; omega), List.length_drop]
      have hstep : specFourStep32 h (u32 (b.take 4)) =
          rotl32 ((h + u32 b * prime32_3) % M32) 17 * prime32_4 % M32 := by
        unfold specFourStep32
        rw [u32_take]
      rw [hstep]
    · rw [Nat.div_eq_of_lt (by omega)]
      simp only [absorb4Aux, specFourGroups32]
      rw [if_neg h4]

theorem specFour64_eq (h : Nat) (b : List Nat) :
    specFour64 h b =
      (if 4 ≤ b.length then
        ((rotl64 (h ^^^ (u32 b * prime64_1 % M64)) 23 * prime64_2 + prime64_3) % M64, b.drop 4)
      else (h, b)) := by
  unfold specFour64
  by_cases h4 : 4 ≤ b.length
  · rw [if_pos h4, if_pos h4, u32_take]
  · rw [if_neg h4, if_neg h4]

theorem absorbTail64_spec (h0 : Nat) (b : List Nat) :
    absorbTail64 h0 b =
      specBytes64 (specFour64 (specEights64 h0 b).1 (specEights64 h0 b).2).1
        (specFour64 (specEights64 h0 b).1 (specEights64 h0 b).2).2 := by
  simp only [absorbTail64, specBytes64]
  rw [← specEights64_eq h0 b]
  rcases hE : specEights64 h0 b with ⟨h1, b1⟩
  simp only []
  rw [specFour64_eq h1 b1]

theorem absorbTail32_spec (h0 : Nat) (b : List Nat) :
    absorbTail32 h0 b = specBytes32 (specFours32 h0 b).1 (specFours32 h0 b).2 := by
  simp only [absorbTail32, specBytes32]
  rw [← specFours32_eq h0 b]

/-! ### Range of the digests and byte serialization -/

theorem shiftRight_lt_of_lt {x n k : Nat} (hx : x < n) : x >>> k < n := by
  rw [Nat.shiftRight_eq_div_pow]
  exact Nat.lt_of_le_of_lt (Nat.div_le_self x (2 ^ k)) hx

theorem avalanche64_lt (h : Nat) : avalanche64 h < 2 ^ 64 := by
  simp only [avalanche64]
  exact Nat.xor_lt_two_pow (Nat.mod_lt _ (by norm_num [M64]))
    (shiftRight_lt_of_lt (Nat.mod_lt _ (by norm_num [M64])))

theorem avalanche32_lt (h : Nat) : avalanche32 h < 2 ^ 32 := by
  simp only [avalanche32]
  exact Nat.xor_lt_two_pow (Nat.mod_lt _ (by norm_num [M32]))
    (shiftRight_lt_of_lt (Nat.mod_lt _ (by norm_num [M32])))

theorem sum64_lt (s : XXHState) : sum64 s < 2 ^ 64 := by
  unfold sum64 sum64Run
  split
  · exact avalanche64_lt _
  · exact avalanche64_lt _

theorem sum32_lt (s : XXHState) : sum32 s < 2 ^ 32 := by
  unfold sum32
  exact avalanche32_lt _

theorem leNat_cons (c : Nat) (l : List Nat) : leNat (c :: l) = c % 256 + 256 * leNat l := rfl

theorem leNat_leBytes : ∀ (k x : Nat), x < 2 ^ (8 * k) → leNat (leBytes k x) = x := by
  intro k
  induction k with
  | zero =>
    intro x hx
    have hx0 : x = 0 := by simpa using hx
    subst hx0
    rfl
  | succ k ih =>
    intro x hx
    have hpow : 2 ^ (8 * (k + 1)) = 2 ^ (8 * k) * 256 := by
      rw [Nat.mul_succ, pow_add]
      norm_num
    have hx2 : x / 256 < 2 ^ (8 * k) := by
      rw [Nat.div_lt_iff_lt_mul (by norm_num)]
      omega
    have hstep : leBytes (k + 1) x = x % 256 :: leBytes k (x / 256) := rfl
    rw [hstep, leNat_cons, ih _ hx2]
    omega

theorem leBytes_eight (x : Nat) :
    leBytes 8 x = [x % 256, x / 256 % 256, x / 256 / 256 % 256, x / 256 / 256 / 256 % 256,
      x / 256 / 256 / 256 / 256 % 256, x / 256 / 256 / 256 / 256 / 256 % 256,
      x / 256 / 256 / 256 / 256 / 256 / 256 % 256,
      x / 256 / 256 / 256 / 256 / 256 / 256 / 256 % 256] := rfl

theorem leBytes_four (x : Nat) :
    leBytes 4 x = [x % 256, x / 256 % 256, x / 256 / 256 % 256, x / 256 / 256 / 256 % 256] := rfl

theorem sum64Append_spec (s : XXHState) (b : List Nat) :
    sum64Append s b = b ++ leBytes 8 (sum64 s) := by
  rw [leBytes_eight]
  simp only [sum64Append]
  norm_num [Nat.shiftRight_eq_div_pow, Nat.div_div_eq_div_mul]

theorem sum32Append_spec (s : XXHState) (b : List Nat) :
    sum32Append s b = b ++ leBytes 4 (sum32 s) := by
  rw [leBytes_four]
  simp only [sum32Append]
  norm_num [Nat.shiftRight_eq_div_pow, Nat.div_div_eq_div_mul]

/-! ### Claim theorems -/

/-- Claim C1: for every seed and every partition of a byte sequence into
consecutive chunks, writing the chunks in order from New and finalizing yields
the same digest as the one-shot Checksum of the whole sequence, in both the
32-bit and 64-bit pipelines.  The total length is bounded by 2^64, the range
of the Go length counter. -/
theorem c1_chunk_invariance (seed : Nat) (ds : List (List Nat))
    (h : ds.flatten.length < 2 ^ 64) :
    sum64 (writeAll64 (new64 seed) ds) = checksum64 ds.flatten seed ∧
    sum32 (writeAll32 (new32 seed) ds) = checksum32 ds.flatten seed := by
  constructor
  · rw [writeAll64_flatten, sum64_write64_new64 seed ds.flatten h]
  · rw [writeAll32_flatten, sum32_write32_new32 seed ds.flatten h]

/-- Witness for C1: seed 0 and the partition [[97,98],[99],[100]] of "abcd". -/
theorem c1_chunk_invariance_witness :
    (([[97, 98], [99], [100]] : List (List Nat)).flatten.length < 2 ^ 64) ∧
      (sum64 (writeAll64 (new64 0) [[97, 98], [99], [100]]) =
          checksum64 ([[97, 98], [99], [100]] : List (List Nat)).flatten 0 ∧
        sum32 (writeAll32 (new32 0) [[97, 98], [99], [100]]) =
          checksum32 ([[97, 98], [99], [100]] : List (List Nat)).flatten 0) :=
  ⟨by decide, c1_chunk_invariance 0 [[97, 98], [99], [100]] (by decide)⟩

/-- Claim C2 is false of the code: Sum64 has a pointer receiver and multiplies
the stored lanes v1..v4 by prime64_2 in place whenever totalLen ≥ 32, so after
writing 32 bytes the state changes and a second Sum64 returns a different
digest.  This theorem exhibits the failing input: seed 0 and 32 bytes 97. -/
theorem c2_sum64_mutates_state :
    (sum64Run (write64 (new64 0) (List.replicate 32 97))).2 ≠
        write64 (new64 0) (List.replicate 32 97) ∧
      sum64 (sum64Run (write64 (new64 0) (List.replicate 32 97))).2 ≠
        sum64 (write64 (new64 0) (List.replicate 32 97)) := by
  decide

/-- Claim C3: for every seed and byte sequence of Go-representable length, the
one-shot Checksum equals New, a single Write, then finalize, for both widths. -/
theorem c3_oneshot_eq_streaming (seed : Nat) (d : List Nat) (h : d.length < 2 ^ 64) :
    sum64 (write64 (new64 seed) d) = checksum64 d seed ∧
    sum32 (write32 (new32 seed) d) = checksum32 d seed :=
  ⟨sum64_write64_new64 seed d h, sum32_write32_new32 seed d h⟩

/-- Witness for C3 at seed 1 and the bytes [1,2,3,4,5]. -/
theorem c3_oneshot_eq_streaming_witness :
    (([1, 2, 3, 4, 5] : List Nat).length < 2 ^ 64) ∧
      (sum64 (write64 (new64 1) [1, 2, 3, 4, 5]) = checksum64 [1, 2, 3, 4, 5] 1 ∧
        sum32 (write32 (new32 1) [1, 2, 3, 4, 5]) = checksum32 [1, 2, 3, 4, 5] 1) :=
  ⟨by decide, c3_oneshot_eq_streaming 1 [1, 2, 3, 4, 5] (by decide)⟩

/-- Claim C4: the 64-bit finalize returns exactly the spec formula: the lane
merge (as a fold over v1..v4 in order), the three carry passes, and the
avalanche. -/
theorem c4_sum64_formula (s : XXHState) : sum64 s = sum64SpecFormula s := by
  have hstep : ∀ h v, specMergeStep64 h v = mergeRound64 h v := fun h v => rfl
  have hfold : [s.v1, s.v2, s.v3, s.v4].foldl specMergeStep64
        ((rotl64 s.v1 1 + rotl64 s.v2 7 + rotl64 s.v3 12 + rotl64 s.v4 18) % M64) =
      mergeLanes64 (lanes s) := by
    rw [List.foldl_cons, List.foldl_cons, List.foldl_cons, List.foldl_cons, List.foldl_nil,
      hstep, hstep, hstep, hstep]
    rfl
  simp only [sum64, sum64Run, sum64SpecFormula]
  by_cases ht : 32 ≤ s.totalLen
  · rw [if_pos ht, if_pos ht, hfold, absorbTail64_spec]
    rfl
  · rw [if_neg ht, if_neg ht, absorbTail64_spec]
    rfl

/-- Claim C5: the 32-bit finalize returns exactly the spec formula. -/
theorem c5_sum32_formula (s : XXHState) : sum32 s = sum32SpecFormula s := by
  simp only [sum32, sum32SpecFormula]
  by_cases ht : 16 ≤ s.totalLen
  · rw [if_pos ht, if_pos ht, absorbTail32_spec]
    rfl
  · rw [if_neg ht, if_neg ht, absorbTail32_spec]
    have hh : s.totalLen % M32 + s.seed + prime32_5 =
        s.totalLen % M32 + (s.seed + prime32_5) := Nat.add_assoc _ _ _
    rw [hh]
    rfl

/-- Claim C6: the reference vectors: seed 0, input "abcd" = [97,98,99,100]
gives 0xa3643705 (32-bit) and 0xde0327b0d25d92cc (64-bit), through both the
one-shot and the streaming paths. -/
theorem c6_reference_vectors :
    checksum32 [97, 98, 99, 100] 0 = 0xa3643705 ∧
      checksum64 [97, 98, 99, 100] 0 = 0xde0327b0d25d92cc ∧
      sum32 (write32 (new32 0) [97, 98, 99, 100]) = 0xa3643705 ∧
      sum64 (write64 (new64 0) [97, 98, 99, 100]) = 0xde0327b0d25d92cc := by
  decide

/-- Claim C7: after construction and after any sequence of Write calls the
carry holds fewer bytes than one stripe, and totalLen equals the total number
of bytes written (the hypothesis is the range of the Go uint64 counter). -/
theorem c7_carry_and_length_invariants (seed : Nat) (ds : List (List Nat))
    (h : (ds.map List.length).sum < 2 ^ 64) :
    (new64 seed).buf.length < 32 ∧ (new64 seed).totalLen = 0 ∧
      (writeAll64 (new64 seed) ds).buf.length < 32 ∧
      (writeAll64 (new64 seed) ds).totalLen = (ds.map List.length).sum ∧
      (new32 seed).buf.length < 16 ∧ (new32 seed).totalLen = 0 ∧
      (writeAll32 (new32 seed) ds).buf.length < 16 ∧
      (writeAll32 (new32 seed) ds).totalLen = (ds.map List.length).sum := by
  have hf : ds.flatten.length = (ds.map List.length).sum := List.length_flatten ds
  refine ⟨by norm_num [new64, reset64], rfl, ?_, ?_, by norm_num [new32, reset32], rfl, ?_, ?_⟩
  · rw [writeAll64_flatten, write64, write64Run,
      writeG_eq 32 mixStripe64 (by norm_num) _ _ (by norm_num [new64, reset64])]
    exact stripes_snd_lt 32 mixStripe64 (by norm_num) _ _
  · rw [writeAll64_flatten, write64, write64Run,
      writeG_eq 32 mixStripe64 (by norm_num) _ _ (by norm_num [new64, reset64])]
    show ((new64 seed).totalLen + ds.flatten.length) % M64 = (ds.map List.length).sum
    rw [show (new64 seed).totalLen = 0 from rfl, Nat.zero_add, hf]
    exact Nat.mod_eq_of_lt h
  · rw [writeAll32_flatten, write32, write32Run,
      writeG_eq 16 mixStripe32 (by norm_num) _ _ (by norm_num [new32, reset32])]
    exact stripes_snd_lt 16 mixStripe32 (by norm_num) _ _
  · rw [writeAll32_flatten, write32, write32Run,
      writeG_eq 16 mixStripe32 (by norm_num) _ _ (by norm_num [new32, reset32])]
    show ((new32 seed).totalLen + ds.flatten.length) % M64 = (ds.map List.length).sum
    rw [show (new32 seed).totalLen = 0 from rfl, Nat.zero_add, hf]
    exact Nat.mod_eq_of_lt h

/-- Witness for C7 at seed 5 and writes [[1,2,3]]. -/
theorem c7_carry_and_length_invariants_witness :
    ((([[1, 2, 3]] : List (List Nat)).map List.length).sum < 2 ^ 64) ∧
      ((new64 5).buf.length < 32 ∧ (new64 5).totalLen = 0 ∧
        (writeAll64 (new64 5) [[1, 2, 3]]).buf.length < 32 ∧
        (writeAll64 (new64 5) [[1, 2, 3]]).totalLen =
          (([[1, 2, 3]] : List (List Nat)).map List.length).sum ∧
        (new32 5).buf.length < 16 ∧ (new32 5).totalLen = 0 ∧
        (writeAll32 (new32 5) [[1, 2, 3]]).buf.length < 16 ∧
        (writeAll32 (new32 5) [[1, 2, 3]]).totalLen =
          (([[1, 2, 3]] : List (List Nat)).map List.length).sum) :=
  ⟨by decide, c7_carry_and_length_invariants 5 [[1, 2, 3]] (by decide)⟩

/-- Claim C8: Write always returns (len(input), nil) and never fails, and a
Write of the empty slice leaves the state unchanged.  The hypotheses are the
Go typing invariants of a reachable state (carry below one stripe, uint64
length counter). -/
theorem c8_write_total_and_empty_noop (s t : XXHState) (d : List Nat)
    (hs1 : s.buf.length < 32) (hs2 : s.totalLen < 2 ^ 64)
    (ht1 : t.buf.length < 16) (ht2 : t.totalLen < 2 ^ 64) :
    (write64Run s d).2 = (d.length, none) ∧ (write32Run t d).2 = (d.length, none) ∧
      write64 s [] = s ∧ write32 t [] = t := by
  refine ⟨?_, ?_, ?_, ?_⟩
  · simp only [write64Run, writeG]
    split
    · rfl
    · rfl
  · simp only [write32Run, writeG]
    split
    · rfl
    · rfl
  · exact writeG_nil 32 mixStripe64 s hs1 hs2
  · exact writeG_nil 16 mixStripe32 t ht1 ht2

/-- Witness for C8 at the fresh states of seed 7 and 3 and input [5,6]. -/
theorem c8_write_total_and_empty_noop_witness :
    ((new64 7).buf.length < 32 ∧ (new64 7).totalLen < 2 ^ 64 ∧
      (new32 3).buf.length < 16 ∧ (new32 3).totalLen < 2 ^ 64) ∧
      ((write64Run (new64 7) [5, 6]).2 = (([5, 6] : List Nat).length, none) ∧
        (write32Run (new32 3) [5, 6]).2 = (([5, 6] : List Nat).length, none) ∧
        write64 (new64 7) [] = new64 7 ∧ write32 (new32 3) [] = new32 3) :=
  ⟨⟨by decide, by decide, by decide, by decide⟩,
    c8_write_total_and_empty_noop (new64 7) (new32 3) [5, 6]
      (by decide) (by decide) (by decide) (by decide)⟩

/-- Claim C9: Reset restores exactly the state New builds from the original
seed — the documented lane values, a zero length and an empty carry — so any
write-then-finalize sequence after Reset equals the same sequence on a fresh
state. -/
theorem c9_reset_equivalence (s : XXHState) (d : List Nat) :
    reset64 s = new64 s.seed ∧
      sum64 (write64 (reset64 s) d) = sum64 (write64 (new64 s.seed) d) ∧
      (reset64 s).v1 = (s.seed + prime64_1 + prime64_2) % M64 ∧
      (reset64 s).v2 = (s.seed + prime64_2) % M64 ∧
      (reset64 s).v3 = s.seed % M64 ∧
      (reset64 s).v4 = (s.seed + (M64 - prime64_1)) % M64 ∧
      (reset64 s).totalLen = 0 ∧ (reset64 s).buf = [] ∧
      reset32 s = new32 s.seed ∧
      sum32 (write32 (reset32 s) d) = sum32 (write32 (new32 s.seed) d) ∧
      (reset32 s).v1 = (s.seed + prime32_1 + prime32_2) % M32 ∧
      (reset32 s).v2 = (s.seed + prime32_2) % M32 ∧
      (reset32 s).v3 = s.seed % M32 ∧
      (reset32 s).v4 = (s.seed + (M32 - prime32_1)) % M32 ∧
      (reset32 s).totalLen = 0 ∧ (reset32 s).buf = [] :=
  ⟨rfl, rfl, rfl, rfl, rfl, rfl, rfl, rfl, rfl, rfl, rfl, rfl, rfl, rfl, rfl, rfl⟩

/-- Claim C10: Sum(b) returns b extended with exactly Size() bytes which are
the little-endian encoding of the digest, and the encoding decodes back to the
digest.  Sum takes the state by value, so the caller's state is untouched. -/
theorem c10_sum_append_le_bytes (s : XXHState) (b : List Nat) :
    sum64Append s b = b ++ leBytes 8 (sum64 s) ∧
      (sum64Append s b).length = b.length + size64 ∧
      leNat (leBytes 8 (sum64 s)) = sum64 s ∧
      sum32Append s b = b ++ leBytes 4 (sum32 s) ∧
      (sum32Append s b).length = b.length + size32 ∧
      leNat (leBytes 4 (sum32 s)) = sum32 s := by
  refine ⟨sum64Append_spec s b, ?_, ?_, sum32Append_spec s b, ?_, ?_⟩
  · simp [sum64Append, size64]
  · exact leNat_leBytes 8 (sum64 s) (by simpa using sum64_lt s)
  · simp [sum32Append, size32]
  · exact leNat_leBytes 4 (sum32 s) (by simpa using sum32_lt s)
